import Mathlib

/-!
Shallow embedding of the ScreenSift screenshot classification service
(`src/index.ts` with schema `src/db/schema.ts`, plus the alternate
single-label entry point).  External collaborators (the Gemini vision
classifier, the R2 blob store, the D1 relational store) are modelled as
explicit data: the classifier result is an `Except` parameter, the blob
store a list of keyed records, and the database a record of table rows.
Machine-generated randomness (UUIDs) and clock reads are threaded in as
explicit parameters.
-/

namespace ScreenSift

/-- Structured judgement returned by the vision classifier in the
multi-label variant (`index.ts`: `analysisSchema` with `categories:
z.array(z.string())`). -/
structure Judgement where
  isImportant : Bool
  confidence : Rat
  categories : List String
  description : String
  extractedText : String
  contentType : String
  folderCategory : String
  retentionPolicy : String
  importanceLevel : String
  deriving DecidableEq, Repr

/-- Fallback judgement returned by `analyzeScreenshot` when the Gemini
call throws (`index.ts` lines 103-116). -/
def fallbackJudgement : Judgement :=
  { isImportant := false
    confidence := 1/2
    categories := ["uncategorized"]
    description := "Analysis failed"
    extractedText := "Analysis failed - could not extract text"
    contentType := "other"
    folderCategory := "Temp"
    retentionPolicy := "delete_immediately"
    importanceLevel := "low" }

/-- Outcome of the external Gemini call: either a structured judgement or
a thrown error. -/
abbrev ClassifierResult := Except String Judgement

/-- The `analyzeScreenshot` helper (`index.ts` lines 39-117): the external
call either succeeds with a judgement or throws, and a thrown error is
absorbed into the deterministic fallback judgement. -/
def analyzeScreenshot (r : ClassifierResult) : Judgement :=
  match r with
  | Except.ok j => j
  | Except.error _ => fallbackJudgement

/-- JavaScript `String.prototype.startsWith`, expressed as a prefix test
on the character sequences. -/
def jsStartsWith (s p : String) : Bool :=
  p.data.isPrefixOf s.data

/-- Month component padded to two digits
(`String(now.getMonth() + 1).padStart(2, '0')`). -/
def monthPad (m : Nat) : String :=
  let s := toString m
  if s.length < 2 then "0" ++ s else s

/-- The last `'.'`-separated segment of a string, i.e. JavaScript
`filename.split('.').pop()`: everything after the final dot, or the whole
string when no dot occurs, or the empty string for a trailing dot. -/
def lastDotSegment (filename : String) : String :=
  String.mk ((filename.data.reverse.takeWhile (fun c => c ≠ '.')).reverse)

/-- Extension extraction in `generateR2Key`
(`filename.split('.').pop() || 'jpg'`): the last dot-separated segment,
with `"jpg"` substituted only when that segment is the empty string
(`pop()` returning `''` or `undefined` is the only falsy case). -/
def extOf (filename : String) : String :=
  let seg := lastDotSegment filename
  if seg = "" then "jpg" else seg

/-- The `generateR2Key` helper (`index.ts` lines 29-36), with the clock
reads (`year`, `month`) and `crypto.randomUUID()` passed in explicitly. -/
def generateR2Key (year month : Nat) (uuid : String) (filename : String) : String :=
  "screenshots/" ++ toString year ++ "/" ++ monthPad month ++ "/" ++ uuid ++ "." ++ extOf filename

/-- Shape of every `crypto.randomUUID()` output: 36 characters (hex
digits and dashes in the 8-4-4-4-12 layout).  For key distinctness only
the fixed length and the absence of dots matter, so only those are
recorded. -/
def uuidShaped (u : String) : Prop :=
  u.length = 36 ∧ '.' ∉ u.data

/-- Row of the `screenshots` table (`schema.ts`). -/
structure Screenshot where
  id : String
  filename : String
  r2Key : String
  fileSize : Nat
  mimeType : String
  uploadedAt : Int
  analyzedAt : Option Int
  isImportant : Bool
  confidenceScore : Option Rat
  deriving DecidableEq, Repr

/-- Row of the `categories` table (`schema.ts`). -/
structure Category where
  id : Nat
  name : String
  description : Option String
  createdAt : Int
  deriving DecidableEq, Repr

/-- Row of the `screenshot_categories` link table (`schema.ts`). -/
structure ScreenshotCategory where
  screenshotId : String
  categoryId : Nat
  confidence : Option Rat
  deriving DecidableEq, Repr

/-- Row of the `analysis_results` table (`schema.ts`). -/
structure AnalysisResult where
  id : Nat
  screenshotId : String
  analysisType : String
  resultData : Judgement
  createdAt : Int
  deriving DecidableEq, Repr

/-- The relational store: the four tables plus the autoincrement counters
for `categories.id` and `analysis_results.id`. -/
structure DB where
  screenshots : List Screenshot
  categories : List Category
  links : List ScreenshotCategory
  analyses : List AnalysisResult
  nextCategoryId : Nat
  nextAnalysisId : Nat
  deriving DecidableEq, Repr

/-- Blob stored in R2 under a key, with the http metadata content type
the handlers set on `put`. -/
structure BlobRec where
  key : String
  contentType : String
  deriving DecidableEq, Repr

/-- Combined persistent state: relational store plus blob store. -/
structure State where
  db : DB
  blobs : List BlobRec
  deriving DecidableEq, Repr

/-- R2 `put`: store under a key, replacing any existing blob at that
key. -/
def r2Put (blobs : List BlobRec) (key contentType : String) : List BlobRec :=
  blobs.filter (fun b => b.key ≠ key) ++ [⟨key, contentType⟩]

/-- R2 `get` viewed as key lookup. -/
def r2Get (blobs : List BlobRec) (key : String) : Option BlobRec :=
  blobs.find? (fun b => b.key == key)

/-- R2 `delete`: removes the blob at the key; deleting an absent key is a
no-op, never an error. -/
def r2Delete (blobs : List BlobRec) (key : String) : List BlobRec :=
  blobs.filter (fun b => b.key ≠ key)

/-- One uploaded multipart file as the handlers see it: name, MIME type
and byte size. -/
structure FileInput where
  name : String
  mimeType : String
  size : Nat
  deriving DecidableEq, Repr

/-- Per-request environment: the UUID drawn for the R2 key, the UUID drawn
for the screenshot row id, the clock reads, and the outcome of the
external classifier call on the uploaded bytes. -/
structure RequestCtx where
  keyUuid : String
  rowId : String
  year : Nat
  month : Nat
  now : Int
  classifier : ClassifierResult
  deriving Repr

/-- Observable persistent-write events, used to state ordering properties
of the handlers' write sequences. -/
inductive Event where
  | r2PutEv (key : String)
  | insertScreenshot (id : String)
  | classify
  | updateScreenshot (id : String)
  | insertAnalysis (id : String)
  | selectCategory (name : String)
  | insertCategory (name : String)
  | insertLink (name : String)
  deriving DecidableEq, Repr

/-- Get-or-create step of the category loop (`index.ts` lines 180-188):
select the first row whose unique name matches; if absent, insert a new
row with the next autoincrement id and return it.  Returns the updated
store, the resolved category id, and the emitted write events. -/
def getOrCreateCategory (db : DB) (name : String) (now : Int) :
    DB × Nat × List Event :=
  match db.categories.find? (fun c => c.name == name) with
  | some cat => (db, cat.id, [Event.selectCategory name])
  | none =>
      let cid := db.nextCategoryId
      let db1 : DB :=
        { db with
            categories := db.categories ++ [⟨cid, name, none, now⟩]
            nextCategoryId := cid + 1 }
      (db1, cid, [Event.selectCategory name, Event.insertCategory name])

/-- The category loop of upload/reanalyze (`index.ts` lines 178-196 and
333-349): for each category name in order, resolve it via get-or-create
and immediately insert a link row carrying the judgement's scalar
confidence. -/
def linkCategories (db : DB) (sid : String) (conf : Rat) (now : Int) :
    List String → DB × List Event
  | [] => (db, [])
  | name :: rest =>
      let r := getOrCreateCategory db name now
      let db1 : DB := { r.1 with links := r.1.links ++ [⟨sid, r.2.1, some conf⟩] }
      let r2 := linkCategories db1 sid conf now rest
      (r2.1, r.2.2 ++ [Event.insertLink name] ++ r2.2)

/-- Response of the upload endpoint. -/
inductive UploadResponse where
  | badRequest (msg : String)
  | created (id filename : String) (isImportant : Bool) (confidence : Rat)
      (categories : List String) (description : String)
  deriving DecidableEq, Repr

/-- The `POST /upload` handler (`index.ts` lines 120-211): validate the
file, put the blob, insert the screenshot row, run the classifier (failure
absorbed by `analyzeScreenshot`), update the row's analysis fields, append
an analysis-result row tagged `gemini_vision`, then run the category
loop.  Returns the final state, the HTTP response, and the write-event
trace. -/
def uploadOp (st : State) (file : Option FileInput) (ctx : RequestCtx) :
    State × UploadResponse × List Event :=
  match file with
  | none => (st, UploadResponse.badRequest "No file provided", [])
  | some f =>
      if jsStartsWith f.mimeType "image/" = false then
        (st, UploadResponse.badRequest "File must be an image", [])
      else
        let key := generateR2Key ctx.year ctx.month ctx.keyUuid f.name
        let blobs1 := r2Put st.blobs key f.mimeType
        let shot : Screenshot :=
          ⟨ctx.rowId, f.name, key, f.size, f.mimeType, ctx.now, none, false, none⟩
        let db1 : DB := { st.db with screenshots := st.db.screenshots ++ [shot] }
        let analysis := analyzeScreenshot ctx.classifier
        let db2 : DB :=
          { db1 with
              screenshots := db1.screenshots.map (fun s =>
                if s.id == shot.id then
                  { s with
                      analyzedAt := some ctx.now
                      isImportant := analysis.isImportant
                      confidenceScore := some analysis.confidence }
                else s) }
        let db3 : DB :=
          { db2 with
              analyses := db2.analyses ++
                [⟨db2.nextAnalysisId, shot.id, "gemini_vision", analysis, ctx.now⟩]
              nextAnalysisId := db2.nextAnalysisId + 1 }
        let r := linkCategories db3 shot.id analysis.confidence ctx.now analysis.categories
        (⟨r.1, blobs1⟩,
         UploadResponse.created shot.id f.name analysis.isImportant
           analysis.confidence analysis.categories analysis.description,
         [Event.r2PutEv key, Event.insertScreenshot shot.id, Event.classify,
          Event.updateScreenshot shot.id, Event.insertAnalysis shot.id] ++ r.2)

/-- Response of the reanalyze endpoint. -/
inductive ReanalyzeResponse where
  | notFound (msg : String)
  | ok (isImportant : Bool) (confidence : Rat) (categories : List String)
  deriving DecidableEq, Repr

/-- The `POST /screenshots/:id/reanalyze` handler (`index.ts` lines
291-362): look the row up (404 if absent), fetch the blob (404 if
absent), re-run the classifier, overwrite the row's analysis fields,
append an analysis-result row tagged `gemini_vision_reanalysis`, delete
all existing links for the screenshot, then run the category loop. -/
def reanalyzeOp (st : State) (sid : String) (cr : ClassifierResult) (now : Int) :
    State × ReanalyzeResponse :=
  match st.db.screenshots.find? (fun s => s.id == sid) with
  | none => (st, ReanalyzeResponse.notFound "Screenshot not found")
  | some shot =>
      match r2Get st.blobs shot.r2Key with
      | none => (st, ReanalyzeResponse.notFound "File not found in storage")
      | some _ =>
          let analysis := analyzeScreenshot cr
          let db1 : DB :=
            { st.db with
                screenshots := st.db.screenshots.map (fun s =>
                  if s.id == sid then
                    { s with
                        analyzedAt := some now
                        isImportant := analysis.isImportant
                        confidenceScore := some analysis.confidence }
                  else s) }
          let db2 : DB :=
            { db1 with
                analyses := db1.analyses ++
                  [⟨db1.nextAnalysisId, sid, "gemini_vision_reanalysis", analysis, now⟩]
                nextAnalysisId := db1.nextAnalysisId + 1 }
          let db3 : DB :=
            { db2 with links := db2.links.filter (fun l => l.screenshotId ≠ sid) }
          let r := linkCategories db3 sid analysis.confidence now analysis.categories
          (⟨r.1, st.blobs⟩,
           ReanalyzeResponse.ok analysis.isImportant analysis.confidence analysis.categories)

/-- Sequential composition of reanalysis calls: one classifier outcome per
call, each applied to the state the previous call left. -/
def reanalyzeMany (st : State) (sid : String) : List (ClassifierResult × Int) → State
  | [] => st
  | (cr, now) :: rest => reanalyzeMany (reanalyzeOp st sid cr now).1 sid rest

/-- The relational store reanalysis builds before entering the category
loop: analysis fields overwritten, the reanalysis result appended, and
all existing links for the screenshot deleted (the `db1`/`db2`/`db3`
stages of `reanalyzeOp` composed). -/
def reanalyzePrep (db : DB) (sid : String) (j : Judgement) (now : Int) : DB :=
  { db with
      screenshots := db.screenshots.map (fun s =>
        if s.id == sid then
          { s with
              analyzedAt := some now
              isImportant := j.isImportant
              confidenceScore := some j.confidence }
        else s)
      analyses := db.analyses ++
        [⟨db.nextAnalysisId, sid, "gemini_vision_reanalysis", j, now⟩]
      nextAnalysisId := db.nextAnalysisId + 1
      links := db.links.filter (fun l => l.screenshotId ≠ sid) }

/-- Query parameters of `GET /screenshots` after parsing (`index.ts`
lines 368-373), with the date strings already converted to timestamps. -/
structure ListFilters where
  category : Option String
  importantOnly : Bool
  dateFrom : Option Int
  dateTo : Option Int
  limit : Nat
  offset : Nat
  deriving DecidableEq, Repr

/-- The non-category `conditions` array of the listing handler
(`index.ts` lines 376-388): importance equality plus inclusive date
bounds, conjoined. -/
def condHolds (f : ListFilters) (s : Screenshot) : Bool :=
  (!f.importantOnly || s.isImportant) &&
  (match f.dateFrom with
   | none => true
   | some d => decide (d ≤ s.uploadedAt)) &&
  (match f.dateTo with
   | none => true
   | some d => decide (s.uploadedAt ≤ d))

/-- Inner-join test of the category branch (`index.ts` lines 401-418):
the screenshot has a link row whose category row carries the requested
name. -/
def hasCategory (db : DB) (s : Screenshot) (name : String) : Bool :=
  db.links.any (fun l =>
    l.screenshotId == s.id &&
    db.categories.any (fun c => c.id == l.categoryId && c.name == name))

/-- Comparator of `orderBy(desc(uploadedAt))`: most recently uploaded
first. -/
def uploadedDesc (a b : Screenshot) : Bool :=
  decide (b.uploadedAt ≤ a.uploadedAt)

/-- The `GET /screenshots` handler (`index.ts` lines 365-442): rows
satisfying every active condition (joined through the link table when a
category filter is present), ordered by upload time descending, then
paginated by offset/limit. -/
def listScreenshots (db : DB) (f : ListFilters) : List Screenshot :=
  let base := db.screenshots.filter (fun s =>
    condHolds f s &&
    (match f.category with
     | none => true
     | some n => hasCategory db s n))
  (((base.mergeSort uploadedDesc).drop f.offset).take f.limit)

/-- The `where` clause of the `cleanup_clutter` tool (`index.ts` lines
664-669): `isImportant = false AND confidenceScore >= threshold`.  A null
confidence satisfies no SQL comparison, so such rows are never
selected. -/
def selectCleanupCandidates (rows : List Screenshot) (threshold : Rat) :
    List Screenshot :=
  rows.filter (fun s =>
    !s.isImportant &&
    (match s.confidenceScore with
     | none => false
     | some c => decide (threshold ≤ c)))

/-- Cascade delete of one screenshot row (`schema.ts`: link and
analysis-result rows reference `screenshots.id` with `onDelete:
"cascade"`). -/
def dbDeleteScreenshot (db : DB) (sid : String) : DB :=
  { db with
      screenshots := db.screenshots.filter (fun s => s.id ≠ sid)
      links := db.links.filter (fun l => l.screenshotId ≠ sid)
      analyses := db.analyses.filter (fun a => a.screenshotId ≠ sid) }

/-- Body of the execute-mode loop of `cleanup_clutter` (`index.ts` lines
686-691): delete the candidate's blob, then its catalog row (with the
cascaded children). -/
def cleanupStep (acc : State) (s : Screenshot) : State :=
  ⟨dbDeleteScreenshot acc.db s.id, r2Delete acc.blobs s.r2Key⟩

/-- The `cleanup_clutter` tool (`index.ts` lines 656-710): select the
candidates; in dry-run mode report them and change nothing; in execute
mode delete each candidate's blob and catalog row in turn. -/
def cleanupClutter (st : State) (dryRun : Bool) (threshold : Rat) :
    State × List Screenshot :=
  let cands := selectCleanupCandidates st.db.screenshots threshold
  if dryRun then (st, cands)
  else (cands.foldl cleanupStep st, cands)

/-- Response of the delete endpoint. -/
inductive DeleteResponse where
  | notFound (msg : String)
  | deleted (msg : String)
  deriving DecidableEq, Repr

/-- The `DELETE /screenshots/:id` handler (`index.ts` lines 469-495):
look the row up (404 if absent), issue the R2 delete unconditionally
without checking its outcome, then delete the row with its cascaded
children. -/
def deleteScreenshot (st : State) (sid : String) : State × DeleteResponse :=
  match st.db.screenshots.find? (fun s => s.id == sid) with
  | none => (st, DeleteResponse.notFound "Screenshot not found")
  | some shot =>
      (⟨dbDeleteScreenshot st.db sid, r2Delete st.blobs shot.r2Key⟩,
       DeleteResponse.deleted "Screenshot deleted successfully")

/-- The MCP `analyze_screenshot` tool (`index.ts` lines 508-569): put the
blob with content type fixed to `image/jpeg`, insert the screenshot row
with MIME type fixed to `image/jpeg`, run the classifier, update the
row's analysis fields, and return a text report.  It appends no
analysis-result row and writes no category or link rows. -/
def mcpAnalyzeScreenshot (st : State) (filename : String) (size : Nat)
    (ctx : RequestCtx) : State × List Event :=
  let key := generateR2Key ctx.year ctx.month ctx.keyUuid filename
  let blobs1 := r2Put st.blobs key "image/jpeg"
  let shot : Screenshot :=
    ⟨ctx.rowId, filename, key, size, "image/jpeg", ctx.now, none, false, none⟩
  let db1 : DB := { st.db with screenshots := st.db.screenshots ++ [shot] }
  let analysis := analyzeScreenshot ctx.classifier
  let db2 : DB :=
    { db1 with
        screenshots := db1.screenshots.map (fun s =>
          if s.id == shot.id then
            { s with
                analyzedAt := some ctx.now
                isImportant := analysis.isImportant
                confidenceScore := some analysis.confidence }
          else s) }
  (⟨db2, blobs1⟩,
   [Event.r2PutEv key, Event.insertScreenshot shot.id, Event.classify,
    Event.updateScreenshot shot.id])

/-- Position of an event in the spec's numbered write sequence: blob put,
then (1) screenshot insert, (2) classifier call, (3) analysis-field
update, (4) analysis-result append, (5) category resolution, (6) link
insert. -/
def stepOf : Event → Nat
  | Event.r2PutEv _ => 0
  | Event.insertScreenshot _ => 1
  | Event.classify => 2
  | Event.updateScreenshot _ => 3
  | Event.insertAnalysis _ => 4
  | Event.selectCategory _ => 5
  | Event.insertCategory _ => 5
  | Event.insertLink _ => 6

/-- Variant of `stepOf` that treats the whole per-category loop (category
select, category insert, link insert) as one phase. -/
def stepOfLoop : Event → Nat
  | Event.r2PutEv _ => 0
  | Event.insertScreenshot _ => 1
  | Event.classify => 2
  | Event.updateScreenshot _ => 3
  | Event.insertAnalysis _ => 4
  | Event.selectCategory _ => 5
  | Event.insertCategory _ => 5
  | Event.insertLink _ => 5

/-- Shape of the event trace emitted by the category loop: one block per
category name, in order, each block a select, an optional insert of the
category row, then the link insert, all for that name. -/
def catBlocks : List String → List Event → Bool
  | [], [] => true
  | n :: ns,
      Event.selectCategory m :: Event.insertCategory m' :: Event.insertLink m'' :: rest =>
      m == n && (m' == n && (m'' == n && catBlocks ns rest))
  | n :: ns, Event.selectCategory m :: Event.insertLink m'' :: rest =>
      m == n && (m'' == n && catBlocks ns rest)
  | _, _ => false

/-- Id carried by a created upload response, if any. -/
def UploadResponse.createdId : UploadResponse → Option String
  | UploadResponse.created i _ _ _ _ _ => some i
  | UploadResponse.badRequest _ => none

/-- Names of the categories currently linked to a screenshot, resolved
through the category table, in link-row order. -/
def linkedNames (db : DB) (sid : String) : List String :=
  (db.links.filter (fun l => l.screenshotId == sid)).filterMap
    (fun l => (db.categories.find? (fun c => c.id == l.categoryId)).map
      (fun c => c.name))

/-- Structural invariants the schema enforces on the relational store:
autoincrement category ids are below the counter and pairwise distinct,
and every link row references an allocated category id. -/
def DBInv (db : DB) : Prop :=
  (∀ c ∈ db.categories, c.id < db.nextCategoryId)
  ∧ db.categories.Pairwise (fun a b => a.id ≠ b.id)
  ∧ (∀ l ∈ db.links, l.categoryId < db.nextCategoryId)

namespace Alt

/-- Structured judgement of the alternate single-label entry point
(`part_000` lines 54-65: `category: z.string()`, plus the `Secrets`
folder). -/
structure Judgement where
  isImportant : Bool
  confidence : Rat
  category : String
  description : String
  extractedText : String
  contentType : String
  folderCategory : String
  retentionPolicy : String
  importanceLevel : String
  deriving DecidableEq, Repr

/-- Fallback judgement of the alternate entry point (`part_000` lines
118-129). -/
def fallbackJudgement : Judgement :=
  { isImportant := false
    confidence := 1/2
    category := "uncategorized"
    description := "Analysis failed"
    extractedText := "Analysis failed - could not extract text"
    contentType := "other"
    folderCategory := "Temp"
    retentionPolicy := "delete_immediately"
    importanceLevel := "low" }

/-- The alternate `analyzeScreenshot` helper (`part_000` lines 41-130):
a thrown classifier error is absorbed into the fallback judgement. -/
def analyzeScreenshot (r : Except String Judgement) : Judgement :=
  match r with
  | Except.ok j => j
  | Except.error _ => fallbackJudgement

/-- Response of the analyze-only endpoint. -/
inductive AnalyzeResponse where
  | badRequest (msg : String)
  | ok (filename : String) (isImportant : Bool) (confidence : Rat)
      (category : String) (description : String) (extractedText : String)
      (contentType : String) (retentionPolicy : String) (importanceLevel : String)
  deriving DecidableEq, Repr

/-- The `POST /analyze` handler (`part_000` lines 133-167): validate the
file, run the classifier, and return the judgement fields directly.  It
takes and returns the persistent state to make explicit that it issues no
database or blob-store writes. -/
def analyzeOnly (st : State) (file : Option FileInput)
    (cr : Except String Judgement) : State × AnalyzeResponse :=
  match file with
  | none => (st, AnalyzeResponse.badRequest "No file provided")
  | some f =>
      if jsStartsWith f.mimeType "image/" = false then
        (st, AnalyzeResponse.badRequest "File must be an image")
      else
        let analysis := analyzeScreenshot cr
        (st, AnalyzeResponse.ok f.name analysis.isImportant analysis.confidence
          analysis.folderCategory analysis.description analysis.extractedText
          analysis.contentType analysis.retentionPolicy analysis.importanceLevel)

/-- Row of `analysis_results` as the alternate entry point writes it: the
JSON result column holds this variant's single-label judgement. -/
structure AnalysisResult where
  id : Nat
  screenshotId : String
  analysisType : String
  resultData : Judgement
  createdAt : Int
  deriving DecidableEq, Repr

/-- Relational store of the alternate entry point: the same four tables
and counters, with the analysis rows holding single-label judgements. -/
structure DB where
  screenshots : List Screenshot
  categories : List Category
  links : List ScreenshotCategory
  analyses : List AnalysisResult
  nextCategoryId : Nat
  nextAnalysisId : Nat
  deriving DecidableEq, Repr

/-- Persistent state of the alternate entry point. -/
structure State where
  db : DB
  blobs : List BlobRec
  deriving DecidableEq, Repr

/-- Response of the alternate reanalyze endpoint.  The success payload
(`part_000` lines 396-401) would carry `analysis.categories`, but control
never reaches it: the loop head before it already throws. -/
inductive ReanalyzeResponse where
  | notFound (msg : String)
  | ok (isImportant : Bool) (confidence : Rat)
  | serverError (msg : String)
  deriving DecidableEq, Repr

/-- The alternate `POST /screenshots/:id/reanalyze` handler (`part_000`
lines 340-411).  After looking up the row and its blob it overwrites the
analysis fields, appends the reanalysis result row, and deletes all of
the screenshot's links — and then executes `for (const categoryName of
analysis.categories)`.  This variant's judgement is single-label
(`category: z.string()`) and has no `categories` field, so the iteration
throws a TypeError before its first step: no category is resolved, no
link is inserted, and the catch block answers 500 with the earlier
writes already applied. -/
def reanalyzeOp (st : State) (sid : String) (cr : Except String Judgement)
    (now : Int) : State × ReanalyzeResponse :=
  match st.db.screenshots.find? (fun s => s.id == sid) with
  | none => (st, ReanalyzeResponse.notFound "Screenshot not found")
  | some shot =>
      match r2Get st.blobs shot.r2Key with
      | none => (st, ReanalyzeResponse.notFound "File not found in storage")
      | some _ =>
          let analysis := analyzeScreenshot cr
          let db1 : DB :=
            { st.db with
                screenshots := st.db.screenshots.map (fun s =>
                  if s.id == sid then
                    { s with
                        analyzedAt := some now
                        isImportant := analysis.isImportant
                        confidenceScore := some analysis.confidence }
                  else s) }
          let db2 : DB :=
            { db1 with
                analyses := db1.analyses ++
                  [⟨db1.nextAnalysisId, sid, "gemini_vision_reanalysis", analysis, now⟩]
                nextAnalysisId := db1.nextAnalysisId + 1 }
          let db3 : DB :=
            { db2 with links := db2.links.filter (fun l => l.screenshotId ≠ sid) }
          (⟨db3, st.blobs⟩, ReanalyzeResponse.serverError "Reanalysis failed")

end Alt

/-!
Theorems settling the claims.
-/

/-- C1: for every image input, if the classifier call fails for any
reason, `analyzeScreenshot` returns exactly the deterministic fallback
judgement — not important, confidence 0.5, categories `["uncategorized"]`
in the multi-label variant and category `"uncategorized"` in the
single-label variant, folder category `"Temp"`, retention policy
`"delete_immediately"`, importance level `"low"`, extracted text the
explicit failure marker — and the upload handler still answers with a
created response carrying these fields, never an error. -/
theorem classifier_failure_absorbed (e : String) (st : State) (f : FileInput)
    (ctx : RequestCtx) (himg : jsStartsWith f.mimeType "image/" = true) :
    analyzeScreenshot (Except.error e) = fallbackJudgement
    ∧ fallbackJudgement.isImportant = false
    ∧ fallbackJudgement.confidence = 1/2
    ∧ fallbackJudgement.categories = ["uncategorized"]
    ∧ fallbackJudgement.folderCategory = "Temp"
    ∧ fallbackJudgement.retentionPolicy = "delete_immediately"
    ∧ fallbackJudgement.importanceLevel = "low"
    ∧ fallbackJudgement.extractedText = "Analysis failed - could not extract text"
    ∧ Alt.analyzeScreenshot (Except.error e) = Alt.fallbackJudgement
    ∧ Alt.fallbackJudgement.category = "uncategorized"
    ∧ (uploadOp st (some f) { ctx with classifier := Except.error e }).2.1 =
        UploadResponse.created ctx.rowId f.name false (1/2) ["uncategorized"]
          "Analysis failed" := by
  refine ⟨rfl, rfl, rfl, rfl, rfl, rfl, rfl, rfl, rfl, rfl, ?_⟩
  simp [uploadOp, himg, analyzeScreenshot, fallbackJudgement]

/-- Witness for C1 at a concrete upload whose classifier call fails. -/
theorem classifier_failure_absorbed_witness :
    (uploadOp ⟨⟨[], [], [], [], 0, 0⟩, []⟩ (some ⟨"a.png", "image/png", 500⟩)
        ⟨"u1", "id1", 2025, 10, 0, Except.error "timeout"⟩).2.1 =
      UploadResponse.created "id1" "a.png" false (1/2) ["uncategorized"]
        "Analysis failed" := by
  have h := classifier_failure_absorbed "timeout" ⟨⟨[], [], [], [], 0, 0⟩, []⟩
    ⟨"a.png", "image/png", 500⟩ ⟨"u1", "id1", 2025, 10, 0, Except.error "timeout"⟩
    (by decide)
  exact h.2.2.2.2.2.2.2.2.2.2

/-- C5: category resolution is idempotent under sequential calls — the
second resolution of the same name changes nothing, returns the id the
first call resolved or created, and a store with at most one row of that
name still has at most one row of that name afterwards. -/
theorem resolveCategory_idempotent (db : DB) (name : String) (t1 t2 : Int) :
    (getOrCreateCategory (getOrCreateCategory db name t1).1 name t2).1 =
      (getOrCreateCategory db name t1).1
    ∧ (getOrCreateCategory (getOrCreateCategory db name t1).1 name t2).2.1 =
      (getOrCreateCategory db name t1).2.1
    ∧ (db.categories.countP (fun c => c.name == name) ≤ 1 →
        ((getOrCreateCategory (getOrCreateCategory db name t1).1 name t2).1).categories.countP
          (fun c => c.name == name) ≤ 1) := by
  cases h : db.categories.find? (fun c => c.name == name) with
  | some cat =>
      refine ⟨?_, ?_, ?_⟩ <;> simp [getOrCreateCategory, h]
  | none =>
      have hzero : db.categories.countP (fun c => c.name == name) = 0 := by
        rw [List.countP_eq_zero]
        exact List.find?_eq_none.mp h
      refine ⟨?_, ?_, ?_⟩ <;>
        simp [getOrCreateCategory, h, List.find?_append, List.countP_append, hzero]

/-- Witness for C5 on an initially empty category table. -/
theorem resolveCategory_idempotent_witness :
    (getOrCreateCategory (getOrCreateCategory ⟨[], [], [], [], 0, 0⟩ "Dev" 3).1 "Dev" 7).1 =
      (getOrCreateCategory ⟨[], [], [], [], 0, 0⟩ "Dev" 3).1
    ∧ (getOrCreateCategory (getOrCreateCategory ⟨[], [], [], [], 0, 0⟩ "Dev" 3).1 "Dev" 7).2.1 =
      (getOrCreateCategory ⟨[], [], [], [], 0, 0⟩ "Dev" 3).2.1
    ∧ ((getOrCreateCategory (getOrCreateCategory ⟨[], [], [], [], 0, 0⟩ "Dev" 3).1 "Dev" 7).1).categories.countP
        (fun c => c.name == "Dev") ≤ 1 := by
  have h := resolveCategory_idempotent ⟨[], [], [], [], 0, 0⟩ "Dev" 3 7
  exact ⟨h.1, h.2.1, h.2.2 (by decide)⟩

/-- C8: the analyze-only endpoint changes no persistent state — the blob
store and every table are returned untouched — and it answers 400 exactly
for a missing file or a non-image MIME type. -/
theorem analyzeOnly_no_persistence (st : State) (file : Option FileInput)
    (cr : Except String Alt.Judgement) :
    (Alt.analyzeOnly st file cr).1 = st
    ∧ ((∃ m, (Alt.analyzeOnly st file cr).2 = Alt.AnalyzeResponse.badRequest m) ↔
        file = none ∨ ∃ f, file = some f ∧ jsStartsWith f.mimeType "image/" = false) := by
  cases file with
  | none => simp [Alt.analyzeOnly]
  | some f =>
      cases hc : jsStartsWith f.mimeType "image/" with
      | false => simp [Alt.analyzeOnly, hc]
      | true => simp [Alt.analyzeOnly, hc]

/-- C10: deletion succeeds and removes the catalog row with its cascaded
children whenever the catalog row exists, regardless of the blob store's
contents — the R2 delete is issued unconditionally and its outcome never
checked — and NotFound is reported exactly when the catalog row is
absent. -/
theorem delete_ignores_blob_state (st : State) (sid : String) :
    ((∃ m, (deleteScreenshot st sid).2 = DeleteResponse.notFound m) ↔
        st.db.screenshots.find? (fun s => s.id == sid) = none)
    ∧ (∀ shot, st.db.screenshots.find? (fun s => s.id == sid) = some shot →
        (deleteScreenshot st sid).2 =
          DeleteResponse.deleted "Screenshot deleted successfully"
        ∧ (∀ s ∈ (deleteScreenshot st sid).1.db.screenshots, s.id ≠ sid)
        ∧ (∀ l ∈ (deleteScreenshot st sid).1.db.links, l.screenshotId ≠ sid)
        ∧ (∀ a ∈ (deleteScreenshot st sid).1.db.analyses, a.screenshotId ≠ sid)
        ∧ (deleteScreenshot st sid).1.blobs = r2Delete st.blobs shot.r2Key) := by
  cases h : st.db.screenshots.find? (fun s => s.id == sid) with
  | none => simp [deleteScreenshot, h]
  | some shot =>
      refine ⟨by simp [deleteScreenshot, h], ?_⟩
      intro s hs
      cases hs
      refine ⟨by simp [deleteScreenshot, h], ?_, ?_, ?_, by simp [deleteScreenshot, h]⟩ <;>
        · intro x hx
          simp only [deleteScreenshot, h, dbDeleteScreenshot, List.mem_filter,
            decide_eq_true_eq] at hx
          exact hx.2

/-- Witness for C10: a catalog row whose blob is already missing (empty
blob store) is still deleted with a success response. -/
theorem delete_ignores_blob_state_witness :
    (deleteScreenshot
        ⟨⟨[⟨"id1", "a.png", "k1", 5, "image/png", 0, none, false, none⟩],
          [], [], [], 0, 0⟩, []⟩ "id1").2 =
      DeleteResponse.deleted "Screenshot deleted successfully" := by
  have h := (delete_ignores_blob_state
      ⟨⟨[⟨"id1", "a.png", "k1", 5, "image/png", 0, none, false, none⟩],
        [], [], [], 0, 0⟩, []⟩ "id1").2
    ⟨"id1", "a.png", "k1", 5, "image/png", 0, none, false, none⟩ (by decide)
  exact h.1

/-- Executing the cleanup loop never adds screenshot rows: every row of
the final store was already in the initial one. -/
theorem cleanupFold_screenshots_subset (cands : List Screenshot) :
    ∀ (st : State) (r : Screenshot),
      r ∈ (cands.foldl cleanupStep st).db.screenshots → r ∈ st.db.screenshots := by
  induction cands with
  | nil => intro st r h; exact h
  | cons c cs ih =>
      intro st r h
      rw [List.foldl_cons] at h
      have h2 := ih (cleanupStep st c) r h
      simp only [cleanupStep, dbDeleteScreenshot, List.mem_filter] at h2
      exact h2.1

/-- Executing the cleanup loop never adds blobs. -/
theorem cleanupFold_blobs_subset (cands : List Screenshot) :
    ∀ (st : State) (b : BlobRec),
      b ∈ (cands.foldl cleanupStep st).blobs → b ∈ st.blobs := by
  induction cands with
  | nil => intro st b h; exact h
  | cons c cs ih =>
      intro st b h
      rw [List.foldl_cons] at h
      have h2 := ih (cleanupStep st c) b h
      simp only [cleanupStep, r2Delete, List.mem_filter] at h2
      exact h2.1

/-- Executing the cleanup loop over a candidate list removes every
candidate's catalog row and blob. -/
theorem cleanupFold_removes (cands : List Screenshot) :
    ∀ (st : State) (s : Screenshot), s ∈ cands →
      (∀ r ∈ (cands.foldl cleanupStep st).db.screenshots, r.id ≠ s.id)
      ∧ (∀ b ∈ (cands.foldl cleanupStep st).blobs, b.key ≠ s.r2Key) := by
  induction cands with
  | nil => intro st s h; cases h
  | cons c cs ih =>
      intro st s h
      rw [List.foldl_cons]
      rcases List.mem_cons.mp h with rfl | hmem
      · constructor
        · intro r hr
          have hr1 := cleanupFold_screenshots_subset cs (cleanupStep st s) r hr
          simp only [cleanupStep, dbDeleteScreenshot, List.mem_filter,
            decide_eq_true_eq] at hr1
          exact hr1.2
        · intro b hb
          have hb1 := cleanupFold_blobs_subset cs (cleanupStep st s) b hb
          simp only [cleanupStep, r2Delete, List.mem_filter,
            decide_eq_true_eq] at hb1
          exact hb1.2
      · exact ih (cleanupStep st c) s hmem

/-- C2: a stored row is a cleanup candidate exactly when its importance
flag is false and it has a stored confidence at or above the threshold;
dry-run mode reports the candidates and changes nothing; execute mode
removes each candidate's blob and catalog row. -/
theorem cleanup_selection_and_modes (st : State) (t : Rat) (s : Screenshot) :
    (s ∈ selectCleanupCandidates st.db.screenshots t ↔
      s ∈ st.db.screenshots ∧ s.isImportant = false ∧
        ∃ c, s.confidenceScore = some c ∧ t ≤ c)
    ∧ (cleanupClutter st true t).1 = st
    ∧ (cleanupClutter st true t).2 = selectCleanupCandidates st.db.screenshots t
    ∧ (s ∈ selectCleanupCandidates st.db.screenshots t →
        (∀ r ∈ (cleanupClutter st false t).1.db.screenshots, r.id ≠ s.id)
        ∧ (∀ b ∈ (cleanupClutter st false t).1.blobs, b.key ≠ s.r2Key)) := by
  refine ⟨?_, by simp [cleanupClutter], by simp [cleanupClutter], ?_⟩
  · simp only [selectCleanupCandidates, List.mem_filter, Bool.and_eq_true,
      Bool.not_eq_true']
    constructor
    · rintro ⟨hmem, himp, hconf⟩
      refine ⟨hmem, himp, ?_⟩
      cases hcs : s.confidenceScore with
      | none => rw [hcs] at hconf; cases hconf
      | some c => rw [hcs] at hconf; exact ⟨c, rfl, of_decide_eq_true hconf⟩
    · rintro ⟨hmem, himp, c, hcs, hle⟩
      refine ⟨hmem, himp, ?_⟩
      rw [hcs]
      exact decide_eq_true hle
  · intro hmem
    exact cleanupFold_removes _ st s hmem

/-- Witness for C2 with threshold 0.8: the non-important rows with
confidence 0.8 and 0.95 are selected, the row with confidence 0.79 is
not, dry-run leaves the state unchanged, and execute mode removes the
selected row. -/
theorem cleanup_selection_and_modes_witness :
    ((⟨"s80", "b", "k80", 1, "image/png", 0, none, false, some (mkRat 8 10)⟩ : Screenshot) ∈
        selectCleanupCandidates
          [⟨"s79", "a", "k79", 1, "image/png", 0, none, false, some (mkRat 79 100)⟩,
           ⟨"s80", "b", "k80", 1, "image/png", 0, none, false, some (mkRat 8 10)⟩,
           ⟨"s95", "c", "k95", 1, "image/png", 0, none, false, some (mkRat 95 100)⟩]
          (mkRat 8 10))
    ∧ ((⟨"s95", "c", "k95", 1, "image/png", 0, none, false, some (mkRat 95 100)⟩ : Screenshot) ∈
        selectCleanupCandidates
          [⟨"s79", "a", "k79", 1, "image/png", 0, none, false, some (mkRat 79 100)⟩,
           ⟨"s80", "b", "k80", 1, "image/png", 0, none, false, some (mkRat 8 10)⟩,
           ⟨"s95", "c", "k95", 1, "image/png", 0, none, false, some (mkRat 95 100)⟩]
          (mkRat 8 10))
    ∧ ((⟨"s79", "a", "k79", 1, "image/png", 0, none, false, some (mkRat 79 100)⟩ : Screenshot) ∉
        selectCleanupCandidates
          [⟨"s79", "a", "k79", 1, "image/png", 0, none, false, some (mkRat 79 100)⟩,
           ⟨"s80", "b", "k80", 1, "image/png", 0, none, false, some (mkRat 8 10)⟩,
           ⟨"s95", "c", "k95", 1, "image/png", 0, none, false, some (mkRat 95 100)⟩]
          (mkRat 8 10))
    ∧ (cleanupClutter
        ⟨⟨[⟨"s79", "a", "k79", 1, "image/png", 0, none, false, some (mkRat 79 100)⟩,
           ⟨"s80", "b", "k80", 1, "image/png", 0, none, false, some (mkRat 8 10)⟩],
          [], [], [], 0, 0⟩, [⟨"k79", "image/png"⟩, ⟨"k80", "image/png"⟩]⟩
        true (mkRat 8 10)).1 =
      ⟨⟨[⟨"s79", "a", "k79", 1, "image/png", 0, none, false, some (mkRat 79 100)⟩,
         ⟨"s80", "b", "k80", 1, "image/png", 0, none, false, some (mkRat 8 10)⟩],
        [], [], [], 0, 0⟩, [⟨"k79", "image/png"⟩, ⟨"k80", "image/png"⟩]⟩
    ∧ (∀ b ∈ (cleanupClutter
        ⟨⟨[⟨"s79", "a", "k79", 1, "image/png", 0, none, false, some (mkRat 79 100)⟩,
           ⟨"s80", "b", "k80", 1, "image/png", 0, none, false, some (mkRat 8 10)⟩],
          [], [], [], 0, 0⟩, [⟨"k79", "image/png"⟩, ⟨"k80", "image/png"⟩]⟩
        false (mkRat 8 10)).1.blobs, b.key ≠ "k80") := by
  refine ⟨?_, ?_, ?_, ?_, ?_⟩
  · exact (cleanup_selection_and_modes
      ⟨⟨[⟨"s79", "a", "k79", 1, "image/png", 0, none, false, some (mkRat 79 100)⟩,
         ⟨"s80", "b", "k80", 1, "image/png", 0, none, false, some (mkRat 8 10)⟩,
         ⟨"s95", "c", "k95", 1, "image/png", 0, none, false, some (mkRat 95 100)⟩],
        [], [], [], 0, 0⟩, []⟩ (mkRat 8 10) _).1.mpr
      ⟨by decide, rfl, mkRat 8 10, rfl, by decide⟩
  · exact (cleanup_selection_and_modes
      ⟨⟨[⟨"s79", "a", "k79", 1, "image/png", 0, none, false, some (mkRat 79 100)⟩,
         ⟨"s80", "b", "k80", 1, "image/png", 0, none, false, some (mkRat 8 10)⟩,
         ⟨"s95", "c", "k95", 1, "image/png", 0, none, false, some (mkRat 95 100)⟩],
        [], [], [], 0, 0⟩, []⟩ (mkRat 8 10) _).1.mpr
      ⟨by decide, rfl, mkRat 95 100, rfl, by decide⟩
  · intro hm
    rcases (cleanup_selection_and_modes
      ⟨⟨[⟨"s79", "a", "k79", 1, "image/png", 0, none, false, some (mkRat 79 100)⟩,
         ⟨"s80", "b", "k80", 1, "image/png", 0, none, false, some (mkRat 8 10)⟩,
         ⟨"s95", "c", "k95", 1, "image/png", 0, none, false, some (mkRat 95 100)⟩],
        [], [], [], 0, 0⟩, []⟩ (mkRat 8 10) _).1.mp hm with ⟨-, -, c, hc, hle⟩
    injection hc with hc
    rw [← hc] at hle
    exact absurd hle (by decide)
  · exact (cleanup_selection_and_modes
      ⟨⟨[⟨"s79", "a", "k79", 1, "image/png", 0, none, false, some (mkRat 79 100)⟩,
         ⟨"s80", "b", "k80", 1, "image/png", 0, none, false, some (mkRat 8 10)⟩],
        [], [], [], 0, 0⟩, [⟨"k79", "image/png"⟩, ⟨"k80", "image/png"⟩]⟩
      (mkRat 8 10)
      ⟨"s80", "b", "k80", 1, "image/png", 0, none, false, some (mkRat 8 10)⟩).2.1
  · exact fun b hb => ((cleanup_selection_and_modes
      ⟨⟨[⟨"s79", "a", "k79", 1, "image/png", 0, none, false, some (mkRat 79 100)⟩,
         ⟨"s80", "b", "k80", 1, "image/png", 0, none, false, some (mkRat 8 10)⟩],
        [], [], [], 0, 0⟩, [⟨"k79", "image/png"⟩, ⟨"k80", "image/png"⟩]⟩
      (mkRat 8 10)
      ⟨"s80", "b", "k80", 1, "image/png", 0, none, false, some (mkRat 8 10)⟩).2.2.2
      (by refine List.mem_filter.mpr ⟨by decide, by decide⟩)).2 b hb

/-- C9 counterexample: the filename `"photo"` has no extension (no dot in
its character sequence), yet the extension used in the generated key is
`"photo"` — the whole filename — not the claimed default `"jpg"`.
`split('.').pop()` on a dotless name returns the name itself, which is
truthy, so the `|| 'jpg'` default never applies. -/
theorem generateR2Key_default_ext_counterexample :
    ("photo".data.count '.') = 0
    ∧ extOf "photo" = "photo"
    ∧ extOf "photo" ≠ "jpg"
    ∧ generateR2Key 2025 10 "u1" "photo" = "screenshots/2025/10/u1.photo" := by
  refine ⟨by decide, by decide, by decide, by decide⟩

/-- Splitting a character list at a dot neither side contains is
unambiguous. -/
theorem dotless_append_dot_inj : ∀ (a1 a2 t1 t2 : List Char),
    a1 ++ '.' :: t1 = a2 ++ '.' :: t2 → '.' ∉ a1 → '.' ∉ a2 →
    a1 = a2 ∧ t1 = t2 := by
  intro a1
  induction a1 with
  | nil =>
      intro a2 t1 t2 h h1 h2
      cases a2 with
      | nil => simpa using h
      | cons c a2' =>
          have hc : '.' = c := by
            have := congrArg List.head? h
            simpa using this
          exact absurd (hc ▸ List.mem_cons_self c a2') h2
  | cons c a1' ih =>
      intro a2 t1 t2 h h1 h2
      cases a2 with
      | nil =>
          have hc : c = '.' := by
            have := congrArg List.head? h
            simpa using this
          exact absurd (hc ▸ List.mem_cons_self c a1') h1
      | cons d a2' =>
          rw [List.cons_append, List.cons_append, List.cons.injEq] at h
          have hrest := ih a2' t1 t2 h.2
            (fun hm => h1 (List.mem_cons_of_mem c hm))
            (fun hm => h2 (List.mem_cons_of_mem d hm))
          exact ⟨by rw [h.1, hrest.1], hrest.2⟩

/-- The extension `generateR2Key` appends never contains a dot: it is
either `"jpg"` or the maximal dot-free suffix of the filename. -/
theorem extOf_data_dotFree (f : String) : '.' ∉ (extOf f).data := by
  unfold extOf lastDotSegment
  by_cases h : String.mk ((f.data.reverse.takeWhile (fun c => c ≠ '.')).reverse) = ""
  · rw [if_pos h]
    decide
  · rw [if_neg h]
    intro hmem
    rw [show (String.mk ((f.data.reverse.takeWhile
        (fun c => c ≠ '.')).reverse)).data =
        (f.data.reverse.takeWhile (fun c => c ≠ '.')).reverse from rfl,
      List.mem_reverse] at hmem
    have := List.mem_takeWhile_imp hmem
    simp at this

/-- Every generated key contains exactly one dot — the separator before
the extension — so distinct dot-free random identifiers of the fixed
UUID length give distinct keys, for any years, months and filenames. -/
theorem generateR2Key_inj (y1 m1 y2 m2 : Nat) (u1 u2 f1 f2 : String)
    (hu1 : uuidShaped u1) (hu2 : uuidShaped u2) (hne : u1 ≠ u2) :
    generateR2Key y1 m1 u1 f1 ≠ generateR2Key y2 m2 u2 f2 := by
  intro heq
  apply hne
  have hdot : (String.data ".").reverse = ['.'] := rfl
  have hdr := congrArg (fun s : String => s.data.reverse) heq
  simp only [generateR2Key, String.data_append, List.reverse_append,
    List.reverse_cons, hdot, List.append_assoc, List.singleton_append] at hdr
  have hsplit := dotless_append_dot_inj _ _ _ _ hdr
    (fun hm => extOf_data_dotFree f1 (List.mem_reverse.mp hm))
    (fun hm => extOf_data_dotFree f2 (List.mem_reverse.mp hm))
  have htail := hsplit.2
  have hlen36 : u1.data.reverse.length = u2.data.reverse.length := by
    rw [List.length_reverse, List.length_reverse]
    exact hu1.1.trans hu2.1.symm
  have hlen37 : (u1.data.reverse ++ ['/']).length =
      (u2.data.reverse ++ ['/']).length := by
    rw [List.length_append, List.length_append, hlen36]
  have hu' := (List.append_inj htail hlen37).1
  have hu := (List.append_inj hu' hlen36).1
  exact String.ext (List.reverse_injective hu)

/-- C9 amended: the generated key has the form
`screenshots/{year}/{month}/{uuid}.{ext}` where `ext` is the last
dot-separated segment of the original filename — for a dotless filename
the whole filename, not `"jpg"` — with `"jpg"` used only when that
segment is empty.  For any two uploads whose random identifiers differ
(distinct draws of the fixed-format, dot-free, 36-character
`crypto.randomUUID`), the two generated keys differ — across any years,
months and filenames — and the two Screenshot ids (themselves the row-id
draws) differ. -/
theorem generateR2Key_form_and_distinct (y1 m1 y2 m2 : Nat)
    (u1 u2 f1 f2 : String)
    (hu1 : uuidShaped u1) (hu2 : uuidShaped u2) (hne : u1 ≠ u2) :
    generateR2Key y1 m1 u1 f1 =
      "screenshots/" ++ toString y1 ++ "/" ++ monthPad m1 ++ "/" ++ u1 ++ "." ++ extOf f1
    ∧ (∀ f : String, lastDotSegment f = "" → extOf f = "jpg")
    ∧ (∀ f : String, lastDotSegment f ≠ "" → extOf f = lastDotSegment f)
    ∧ generateR2Key y1 m1 u1 f1 ≠ generateR2Key y2 m2 u2 f2
    ∧ (∀ (st1 st2 : State) (g1 g2 : FileInput) (c1 c2 : RequestCtx),
        jsStartsWith g1.mimeType "image/" = true →
        jsStartsWith g2.mimeType "image/" = true →
        uuidShaped c1.keyUuid → uuidShaped c2.keyUuid →
        c1.keyUuid ≠ c2.keyUuid → c1.rowId ≠ c2.rowId →
        (uploadOp st1 (some g1) c1).2.1.createdId ≠
          (uploadOp st2 (some g2) c2).2.1.createdId
        ∧ generateR2Key c1.year c1.month c1.keyUuid g1.name ≠
            generateR2Key c2.year c2.month c2.keyUuid g2.name) := by
  refine ⟨rfl, ?_, ?_, generateR2Key_inj y1 m1 y2 m2 u1 u2 f1 f2 hu1 hu2 hne, ?_⟩
  · intro f hseg
    simp [extOf, hseg]
  · intro f hseg
    simp [extOf, hseg]
  · intro st1 st2 g1 g2 c1 c2 h1 h2 hk1 hk2 hku hid
    refine ⟨?_, generateR2Key_inj c1.year c1.month c2.year c2.month
      c1.keyUuid c2.keyUuid g1.name g2.name hk1 hk2 hku⟩
    intro heq
    simp [uploadOp, h1, h2, UploadResponse.createdId] at heq
    exact hid heq

/-- Witness for C9 amended: two concrete uploads in different months with
distinct UUID-shaped random identifiers get distinct keys. -/
theorem generateR2Key_form_and_distinct_witness :
    generateR2Key 2025 9 "aaaaaaaa-bbbb-cccc-dddd-eeeeeeeeeee1" "photo" ≠
      generateR2Key 2024 12 "aaaaaaaa-bbbb-cccc-dddd-eeeeeeeeeee2" "y.txt" :=
  (generateR2Key_form_and_distinct 2025 9 2024 12
    "aaaaaaaa-bbbb-cccc-dddd-eeeeeeeeeee1"
    "aaaaaaaa-bbbb-cccc-dddd-eeeeeeeeeee2" "photo" "y.txt"
    (by unfold uuidShaped; exact ⟨by decide, by decide⟩)
    (by unfold uuidShaped; exact ⟨by decide, by decide⟩)
    (by decide)).2.2.2.1

/-- C4 counterexample: in an upload whose judgement carries two
categories, the link-row insert (step 6) for the first category precedes
the get-or-create resolution (step 5) of the second, so the write
sequence is not monotone in the spec's step numbering. -/
theorem upload_write_order_counterexample :
    ¬ ((uploadOp ⟨⟨[], [], [], [], 0, 0⟩, []⟩ (some ⟨"a.png", "image/png", 5⟩)
        ⟨"u1", "id1", 2025, 10, 0,
          Except.ok ⟨false, mkRat 9 10, ["Dev", "Social"], "d", "t", "dev",
            "Dev", "keep", "high"⟩⟩).2.2.Pairwise
        (fun a b => stepOf a ≤ stepOf b)) := by
  decide

/-- The event trace of the category loop consists of one well-formed
block per category name, in order. -/
theorem catBlocks_linkCategories (sid : String) (conf : Rat) (now : Int) :
    ∀ (ns : List String) (db : DB),
      catBlocks ns (linkCategories db sid conf now ns).2 = true := by
  intro ns
  induction ns with
  | nil => intro db; rfl
  | cons n rest ih =>
      intro db
      cases h : db.categories.find? (fun c => c.name == n) with
      | some cat => simp [linkCategories, getOrCreateCategory, h, catBlocks, ih]
      | none => simp [linkCategories, getOrCreateCategory, h, catBlocks, ih]

/-- Every event the category loop emits belongs to the per-category
phase. -/
theorem stepOfLoop_linkCategories (sid : String) (conf : Rat) (now : Int) :
    ∀ (ns : List String) (db : DB) (e : Event),
      e ∈ (linkCategories db sid conf now ns).2 → stepOfLoop e = 5 := by
  intro ns
  induction ns with
  | nil => intro db e h; cases h
  | cons n rest ih =>
      intro db e h
      cases hf : db.categories.find? (fun c => c.name == n) with
      | some cat =>
          simp only [linkCategories, getOrCreateCategory, hf, List.cons_append,
            List.nil_append, List.mem_cons] at h
          rcases h with rfl | rfl | h
          · rfl
          · rfl
          · exact ih _ e h
      | none =>
          simp only [linkCategories, getOrCreateCategory, hf, List.cons_append,
            List.nil_append, List.mem_cons] at h
          rcases h with rfl | rfl | rfl | h
          · rfl
          · rfl
          · rfl
          · exact ih _ e h

/-- Phase markers never exceed the per-category phase. -/
theorem stepOfLoop_le_five (e : Event) : stepOfLoop e ≤ 5 := by
  cases e <;> simp [stepOfLoop]

/-- A trace made only of per-category events is monotone in the collapsed
phase numbering. -/
theorem pairwise_loop_of_all (l : List Event) :
    (∀ e ∈ l, stepOfLoop e = 5) →
    l.Pairwise (fun a b => stepOfLoop a ≤ stepOfLoop b) := by
  induction l with
  | nil => intro _; exact List.Pairwise.nil
  | cons a l ih =>
      intro h
      refine List.Pairwise.cons ?_ (ih fun e he => h e (List.mem_cons_of_mem a he))
      intro b hb
      rw [h a (List.mem_cons_self a l), h b (List.mem_cons_of_mem a hb)]

/-- C4 amended: an accepted upload's write trace is the blob put, the
screenshot insert, the classifier call, the analysis-field update and the
analysis-result append, in that order, followed by the per-category loop;
within the loop each category's get-or-create resolution precedes its
link insert, but the resolutions and link inserts of different categories
interleave block by block; collapsing the loop into a single phase, no
later phase precedes an earlier one. -/
theorem upload_write_order_amended (st : State) (f : FileInput) (ctx : RequestCtx)
    (himg : jsStartsWith f.mimeType "image/" = true) :
    ∃ catPart : List Event,
      (uploadOp st (some f) ctx).2.2 =
        [Event.r2PutEv (generateR2Key ctx.year ctx.month ctx.keyUuid f.name),
         Event.insertScreenshot ctx.rowId, Event.classify,
         Event.updateScreenshot ctx.rowId, Event.insertAnalysis ctx.rowId] ++ catPart
      ∧ catBlocks (analyzeScreenshot ctx.classifier).categories catPart = true
      ∧ (uploadOp st (some f) ctx).2.2.Pairwise
          (fun a b => stepOfLoop a ≤ stepOfLoop b) := by
  simp only [uploadOp, himg, Bool.true_eq_false, if_false]
  refine ⟨_, rfl, catBlocks_linkCategories _ _ _ _ _, ?_⟩
  rw [List.pairwise_append]
  refine ⟨?_, pairwise_loop_of_all _ (fun e he =>
      stepOfLoop_linkCategories _ _ _ _ _ e he), ?_⟩
  · simp [List.pairwise_cons, stepOfLoop]
  · intro a _ b hb
    rw [stepOfLoop_linkCategories _ _ _ _ _ b hb]
    exact stepOfLoop_le_five a

/-- Witness for C4 amended at a concrete two-category upload. -/
theorem upload_write_order_amended_witness :
    ∃ catPart : List Event,
      (uploadOp ⟨⟨[], [], [], [], 0, 0⟩, []⟩ (some ⟨"a.png", "image/png", 5⟩)
        ⟨"u1", "id1", 2025, 10, 0,
          Except.ok ⟨false, mkRat 9 10, ["Dev", "Social"], "d", "t", "dev",
            "Dev", "keep", "high"⟩⟩).2.2 =
        [Event.r2PutEv (generateR2Key 2025 10 "u1" "a.png"),
         Event.insertScreenshot "id1", Event.classify,
         Event.updateScreenshot "id1", Event.insertAnalysis "id1"] ++ catPart
      ∧ catBlocks (analyzeScreenshot (Except.ok ⟨false, mkRat 9 10,
          ["Dev", "Social"], "d", "t", "dev", "Dev", "keep", "high"⟩)).categories
          catPart = true
      ∧ (uploadOp ⟨⟨[], [], [], [], 0, 0⟩, []⟩ (some ⟨"a.png", "image/png", 5⟩)
        ⟨"u1", "id1", 2025, 10, 0,
          Except.ok ⟨false, mkRat 9 10, ["Dev", "Social"], "d", "t", "dev",
            "Dev", "keep", "high"⟩⟩).2.2.Pairwise
          (fun a b => stepOfLoop a ≤ stepOfLoop b) :=
  upload_write_order_amended ⟨⟨[], [], [], [], 0, 0⟩, []⟩ ⟨"a.png", "image/png", 5⟩
    ⟨"u1", "id1", 2025, 10, 0,
      Except.ok ⟨false, mkRat 9 10, ["Dev", "Social"], "d", "t", "dev",
        "Dev", "keep", "high"⟩⟩ (by decide)

/-- C6: every row the listing returns satisfies all active filters
conjoined — the importance flag when `important_only` is set, a link to
the requested category when a category filter is present, and the
inclusive date bounds — and the page is ordered by upload time
descending. -/
theorem list_filters_sound (db : DB) (f : ListFilters) :
    (∀ s ∈ listScreenshots db f,
        s ∈ db.screenshots
        ∧ (f.importantOnly = true → s.isImportant = true)
        ∧ (∀ d, f.dateFrom = some d → d ≤ s.uploadedAt)
        ∧ (∀ d, f.dateTo = some d → s.uploadedAt ≤ d)
        ∧ (∀ n, f.category = some n → hasCategory db s n = true))
    ∧ (listScreenshots db f).Pairwise
        (fun a b => b.uploadedAt ≤ a.uploadedAt) := by
  constructor
  · intro s hs
    have hbase : s ∈ db.screenshots.filter (fun s =>
        condHolds f s &&
        (match f.category with
         | none => true
         | some n => hasCategory db s n)) := by
      exact List.mem_mergeSort.mp
        (List.mem_of_mem_drop (List.mem_of_mem_take hs))
    rcases List.mem_filter.mp hbase with ⟨hmem, hpred⟩
    simp only [condHolds, Bool.and_eq_true] at hpred
    rcases hpred with ⟨⟨⟨himp, hFrom⟩, hTo⟩, hcat⟩
    refine ⟨hmem, ?_, ?_, ?_, ?_⟩
    · intro hio
      rw [hio] at himp
      simpa using himp
    · intro d hd
      rw [hd] at hFrom
      exact of_decide_eq_true hFrom
    · intro d hd
      rw [hd] at hTo
      exact of_decide_eq_true hTo
    · intro n hn
      rw [hn] at hcat
      exact hcat
  · have htrans : ∀ a b c : Screenshot, uploadedDesc a b = true →
        uploadedDesc b c = true → uploadedDesc a c = true := by
      intro a b c hab hbc
      exact decide_eq_true
        (le_trans (of_decide_eq_true hbc) (of_decide_eq_true hab))
    have htotal : ∀ a b : Screenshot,
        (uploadedDesc a b || uploadedDesc b a) = true := by
      intro a b
      simp only [uploadedDesc, Bool.or_eq_true, decide_eq_true_eq]
      exact Int.le_total b.uploadedAt a.uploadedAt
    have hsorted := List.sorted_mergeSort htrans htotal
      (db.screenshots.filter (fun s =>
        condHolds f s &&
        (match f.category with
         | none => true
         | some n => hasCategory db s n)))
    have hsub := (hsorted.sublist (List.drop_sublist f.offset _)).sublist
      (List.take_sublist f.limit _)
    exact hsub.imp (fun h => of_decide_eq_true h)

/-- Witness for C6: a one-row store listed with `important_only` set: the
returned row is in the store and important, and the page is sorted. -/
theorem list_filters_sound_witness :
    ((⟨"s1", "a", "k1", 1, "image/png", 7, none, true, none⟩ : Screenshot) ∈
        (⟨[⟨"s1", "a", "k1", 1, "image/png", 7, none, true, none⟩],
          [], [], [], 0, 0⟩ : DB).screenshots
      ∧ ((⟨none, true, none, none, 50, 0⟩ : ListFilters).importantOnly = true →
          (⟨"s1", "a", "k1", 1, "image/png", 7, none, true, none⟩ : Screenshot).isImportant = true)
      ∧ (∀ d, (⟨none, true, none, none, 50, 0⟩ : ListFilters).dateFrom = some d →
          d ≤ (⟨"s1", "a", "k1", 1, "image/png", 7, none, true, none⟩ : Screenshot).uploadedAt)
      ∧ (∀ d, (⟨none, true, none, none, 50, 0⟩ : ListFilters).dateTo = some d →
          (⟨"s1", "a", "k1", 1, "image/png", 7, none, true, none⟩ : Screenshot).uploadedAt ≤ d)
      ∧ (∀ n, (⟨none, true, none, none, 50, 0⟩ : ListFilters).category = some n →
          hasCategory ⟨[⟨"s1", "a", "k1", 1, "image/png", 7, none, true, none⟩],
            [], [], [], 0, 0⟩
            ⟨"s1", "a", "k1", 1, "image/png", 7, none, true, none⟩ n = true))
    ∧ (listScreenshots
        ⟨[⟨"s1", "a", "k1", 1, "image/png", 7, none, true, none⟩],
          [], [], [], 0, 0⟩ ⟨none, true, none, none, 50, 0⟩).Pairwise
        (fun a b => b.uploadedAt ≤ a.uploadedAt) := by
  refine ⟨(list_filters_sound
      ⟨[⟨"s1", "a", "k1", 1, "image/png", 7, none, true, none⟩], [], [], [], 0, 0⟩
      ⟨none, true, none, none, 50, 0⟩).1 _ ?_,
    (list_filters_sound
      ⟨[⟨"s1", "a", "k1", 1, "image/png", 7, none, true, none⟩], [], [], [], 0, 0⟩
      ⟨none, true, none, none, 50, 0⟩).2⟩
  simp [listScreenshots, condHolds]

/-- C7 counterexample: from the same empty initial state, the same image
bytes and the same successful judgement, the HTTP upload appends an
analysis-result row (and a category row and a link row) while the MCP
`analyze_screenshot` tool appends none of them, so the two surfaces leave
different final storage states. -/
theorem mcp_tool_not_equivalent_counterexample :
    ((uploadOp ⟨⟨[], [], [], [], 0, 0⟩, []⟩ (some ⟨"a.png", "image/png", 5⟩)
        ⟨"u1", "id1", 2025, 10, 0,
          Except.ok ⟨false, mkRat 9 10, ["Dev"], "d", "t", "dev", "Dev",
            "keep", "high"⟩⟩).1.db.analyses).length = 1
    ∧ ((mcpAnalyzeScreenshot ⟨⟨[], [], [], [], 0, 0⟩, []⟩ "a.png" 5
        ⟨"u1", "id1", 2025, 10, 0,
          Except.ok ⟨false, mkRat 9 10, ["Dev"], "d", "t", "dev", "Dev",
            "keep", "high"⟩⟩).1.db.analyses).length = 0
    ∧ ((uploadOp ⟨⟨[], [], [], [], 0, 0⟩, []⟩ (some ⟨"a.png", "image/png", 5⟩)
        ⟨"u1", "id1", 2025, 10, 0,
          Except.ok ⟨false, mkRat 9 10, ["Dev"], "d", "t", "dev", "Dev",
            "keep", "high"⟩⟩).1 ≠
      (mcpAnalyzeScreenshot ⟨⟨[], [], [], [], 0, 0⟩, []⟩ "a.png" 5
        ⟨"u1", "id1", 2025, 10, 0,
          Except.ok ⟨false, mkRat 9 10, ["Dev"], "d", "t", "dev", "Dev",
            "keep", "high"⟩⟩).1) := by
  refine ⟨by decide, by decide, by decide⟩

/-- C7 amended: the MCP `analyze_screenshot` tool performs only the first
part of the upload write sequence — blob put (content type fixed to
`image/jpeg`), screenshot insert, classifier call, analysis-field
update — and leaves the analysis-result, category and link tables
untouched; an accepted HTTP upload of the same file continues past the
tool's trace with the analysis-result append the tool omits. -/
theorem mcp_tool_partial_equivalence (st : State) (fname : String) (size : Nat)
    (ctx : RequestCtx) :
    (mcpAnalyzeScreenshot st fname size ctx).1.db.analyses = st.db.analyses
    ∧ (mcpAnalyzeScreenshot st fname size ctx).1.db.links = st.db.links
    ∧ (mcpAnalyzeScreenshot st fname size ctx).1.db.categories = st.db.categories
    ∧ (mcpAnalyzeScreenshot st fname size ctx).1.blobs =
        r2Put st.blobs (generateR2Key ctx.year ctx.month ctx.keyUuid fname)
          "image/jpeg"
    ∧ (mcpAnalyzeScreenshot st fname size ctx).2 =
        [Event.r2PutEv (generateR2Key ctx.year ctx.month ctx.keyUuid fname),
         Event.insertScreenshot ctx.rowId, Event.classify,
         Event.updateScreenshot ctx.rowId]
    ∧ (∀ g : FileInput, g.name = fname →
        jsStartsWith g.mimeType "image/" = true →
        ∃ rest, (uploadOp st (some g) ctx).2.2 =
          (mcpAnalyzeScreenshot st fname size ctx).2 ++
            (Event.insertAnalysis ctx.rowId :: rest)) := by
  refine ⟨rfl, rfl, rfl, rfl, rfl, ?_⟩
  intro g hname himg
  subst hname
  simp only [uploadOp, himg, Bool.true_eq_false, if_false, mcpAnalyzeScreenshot]
  exact ⟨_, rfl⟩

/-- Witness for C7 amended at a concrete file and judgement. -/
theorem mcp_tool_partial_equivalence_witness :
    (mcpAnalyzeScreenshot ⟨⟨[], [], [], [], 0, 0⟩, []⟩ "b.png" 9
        ⟨"u2", "id2", 2025, 11, 1,
          Except.ok ⟨true, mkRat 7 10, ["Dev"], "d", "t", "dev", "Dev",
            "keep", "high"⟩⟩).1.db.analyses = []
    ∧ (∃ rest, (uploadOp ⟨⟨[], [], [], [], 0, 0⟩, []⟩ (some ⟨"b.png", "image/png", 9⟩)
        ⟨"u2", "id2", 2025, 11, 1,
          Except.ok ⟨true, mkRat 7 10, ["Dev"], "d", "t", "dev", "Dev",
            "keep", "high"⟩⟩).2.2 =
        (mcpAnalyzeScreenshot ⟨⟨[], [], [], [], 0, 0⟩, []⟩ "b.png" 9
          ⟨"u2", "id2", 2025, 11, 1,
            Except.ok ⟨true, mkRat 7 10, ["Dev"], "d", "t", "dev", "Dev",
              "keep", "high"⟩⟩).2 ++
          (Event.insertAnalysis "id2" :: rest)) := by
  have h := mcp_tool_partial_equivalence ⟨⟨[], [], [], [], 0, 0⟩, []⟩ "b.png" 9
    ⟨"u2", "id2", 2025, 11, 1,
      Except.ok ⟨true, mkRat 7 10, ["Dev"], "d", "t", "dev", "Dev",
        "keep", "high"⟩⟩
  exact ⟨h.1, h.2.2.2.2.2 ⟨"b.png", "image/png", 9⟩ rfl (by decide)⟩

/-- With pairwise-distinct category ids, lookup by a member's id returns
exactly that member. -/
theorem find?_id_of_mem (cats : List Category)
    (hnd : cats.Pairwise (fun a b => a.id ≠ b.id)) (cat : Category)
    (hmem : cat ∈ cats) :
    cats.find? (fun c => c.id == cat.id) = some cat := by
  induction cats with
  | nil => cases hmem
  | cons a l ih =>
      rcases List.mem_cons.mp hmem with rfl | hmem'
      · simp [List.find?_cons]
      · have hne : a.id ≠ cat.id :=
          (List.pairwise_cons.mp hnd).1 cat hmem'
        have hbe : (a.id == cat.id) = false := by simp [hne]
        simp only [List.find?_cons, hbe]
        exact ih (List.pairwise_cons.mp hnd).2 hmem'

/-- Appending a category row whose id differs from the looked-up id does
not change the lookup. -/
theorem find?_id_append_ne (cats : List Category) (row : Category) (i : Nat)
    (hne : row.id ≠ i) :
    (cats ++ [row]).find? (fun c => c.id == i) =
      cats.find? (fun c => c.id == i) := by
  rw [List.find?_append]
  cases h : cats.find? (fun c => c.id == i) with
  | some c => rfl
  | none => simp [List.find?_cons, hne]

/-- Effect of one get-or-create call on an invariant-satisfying store:
the invariant is preserved, no table other than `categories` moves, the
resolved id is an allocated id whose row carries the requested name, and
lookups of previously allocated ids are unchanged. -/
theorem getOrCreateCategory_spec (db : DB) (name : String) (now : Int)
    (hinv : DBInv db) :
    DBInv (getOrCreateCategory db name now).1
    ∧ (getOrCreateCategory db name now).1.links = db.links
    ∧ (getOrCreateCategory db name now).1.screenshots = db.screenshots
    ∧ (getOrCreateCategory db name now).1.analyses = db.analyses
    ∧ (getOrCreateCategory db name now).1.nextAnalysisId = db.nextAnalysisId
    ∧ db.nextCategoryId ≤ (getOrCreateCategory db name now).1.nextCategoryId
    ∧ (getOrCreateCategory db name now).2.1 <
        (getOrCreateCategory db name now).1.nextCategoryId
    ∧ (∃ c, (getOrCreateCategory db name now).1.categories.find?
          (fun c => c.id == (getOrCreateCategory db name now).2.1) = some c
        ∧ c.name = name)
    ∧ (∀ i, i < db.nextCategoryId →
        (getOrCreateCategory db name now).1.categories.find? (fun c => c.id == i) =
          db.categories.find? (fun c => c.id == i)) := by
  obtain ⟨hbound, hnd, hlinks⟩ := hinv
  cases h : db.categories.find? (fun c => c.name == name) with
  | some cat =>
      have hmem := List.mem_of_find?_eq_some h
      have hname : cat.name = name := by
        have := List.find?_some h
        simpa using this
      have hred : getOrCreateCategory db name now =
          (db, cat.id, [Event.selectCategory name]) := by
        simp [getOrCreateCategory, h]
      rw [hred]
      refine ⟨⟨hbound, hnd, hlinks⟩, rfl, rfl, rfl, rfl, le_refl _,
        hbound cat hmem, ⟨cat, find?_id_of_mem db.categories hnd cat hmem, hname⟩,
        fun i _ => rfl⟩
  | none =>
      have hred : getOrCreateCategory db name now =
          ({ db with
              categories := db.categories ++ [⟨db.nextCategoryId, name, none, now⟩]
              nextCategoryId := db.nextCategoryId + 1 },
            db.nextCategoryId,
            [Event.selectCategory name, Event.insertCategory name]) := by
        simp [getOrCreateCategory, h]
      rw [hred]
      refine ⟨⟨?_, ?_, ?_⟩, rfl, rfl, rfl, rfl, Nat.le_succ _,
        Nat.lt_succ_self _, ?_, ?_⟩
      · intro c hc
        rcases List.mem_append.mp hc with hc' | hc'
        · exact Nat.lt_trans (hbound c hc') (Nat.lt_succ_self _)
        · rcases List.mem_singleton.mp hc' with rfl
          exact Nat.lt_succ_self _
      · rw [List.pairwise_append]
        refine ⟨hnd, List.pairwise_singleton _ _, ?_⟩
        intro a ha b hb
        rcases List.mem_singleton.mp hb with rfl
        exact Nat.ne_of_lt (hbound a ha)
      · intro l hl
        exact Nat.lt_trans (hlinks l hl) (Nat.lt_succ_self _)
      · refine ⟨⟨db.nextCategoryId, name, none, now⟩, ?_, rfl⟩
        rw [List.find?_append]
        have hnone : db.categories.find?
            (fun c => c.id == db.nextCategoryId) = none := by
          rw [List.find?_eq_none]
          intro c hc
          simp [Nat.ne_of_lt (hbound c hc)]
        rw [hnone]
        simp [List.find?_cons]
      · intro i hi
        exact find?_id_append_ne db.categories _ i (Nat.ne_of_gt hi)

/-- Effect of the category loop on an invariant-satisfying store: the
invariant is preserved, screenshots, analysis results and their counter
do not move, and the target screenshot's linked category names gain
exactly the processed names, in order. -/
theorem linkCategories_spec (sid : String) (conf : Rat) (now : Int) :
    ∀ (ns : List String) (db : DB), DBInv db →
      DBInv (linkCategories db sid conf now ns).1
      ∧ (linkCategories db sid conf now ns).1.screenshots = db.screenshots
      ∧ (linkCategories db sid conf now ns).1.analyses = db.analyses
      ∧ (linkCategories db sid conf now ns).1.nextAnalysisId = db.nextAnalysisId
      ∧ linkedNames (linkCategories db sid conf now ns).1 sid =
          linkedNames db sid ++ ns := by
  intro ns
  induction ns with
  | nil => intro db hinv; exact ⟨hinv, rfl, rfl, rfl, by simp [linkCategories]⟩
  | cons n rest ih =>
      intro db hinv
      obtain ⟨hbound, hnd, hlinkb⟩ := hinv
      obtain ⟨hginv, hglinks, hgshots, hgan, hgnext, hgmono, hgcid,
        ⟨crow, hcrow, hcname⟩, hgstable⟩ :=
        getOrCreateCategory_spec db n now ⟨hbound, hnd, hlinkb⟩
      have hinv1 : DBInv { (getOrCreateCategory db n now).1 with
          links := (getOrCreateCategory db n now).1.links ++
            [⟨sid, (getOrCreateCategory db n now).2.1, some conf⟩] } := by
        obtain ⟨hb1, hn1, hl1⟩ := hginv
        refine ⟨hb1, hn1, ?_⟩
        intro l hl
        rcases List.mem_append.mp hl with h' | h'
        · exact hl1 l h'
        · rcases List.mem_singleton.mp h' with rfl
          exact hgcid
      have hstep := ih _ hinv1
      have hlinks1 : ({ (getOrCreateCategory db n now).1 with
          links := (getOrCreateCategory db n now).1.links ++
            [⟨sid, (getOrCreateCategory db n now).2.1, some conf⟩] } : DB).links =
          db.links ++ [⟨sid, (getOrCreateCategory db n now).2.1, some conf⟩] := by
        rw [← hglinks]
      have hcats1 : ({ (getOrCreateCategory db n now).1 with
          links := (getOrCreateCategory db n now).1.links ++
            [⟨sid, (getOrCreateCategory db n now).2.1, some conf⟩] } : DB).categories =
          (getOrCreateCategory db n now).1.categories := rfl
      have hnames1 : linkedNames
          { (getOrCreateCategory db n now).1 with
            links := (getOrCreateCategory db n now).1.links ++
              [⟨sid, (getOrCreateCategory db n now).2.1, some conf⟩] } sid =
          linkedNames db sid ++ [n] := by
        unfold linkedNames
        rw [hlinks1, hcats1, List.filter_append, List.filterMap_append]
        congr 1
        · apply List.filterMap_congr
          intro x hx
          rw [hgstable x.categoryId (hlinkb x (List.mem_filter.mp hx).1)]
        · simp [hcrow, hcname]
      refine ⟨?_, ?_, ?_, ?_, ?_⟩
      · exact hstep.1
      · rw [show (linkCategories db sid conf now (n :: rest)).1 =
            (linkCategories { (getOrCreateCategory db n now).1 with
              links := (getOrCreateCategory db n now).1.links ++
                [⟨sid, (getOrCreateCategory db n now).2.1, some conf⟩] }
              sid conf now rest).1 from rfl]
        rw [hstep.2.1]
        exact hgshots
      · rw [show (linkCategories db sid conf now (n :: rest)).1 =
            (linkCategories { (getOrCreateCategory db n now).1 with
              links := (getOrCreateCategory db n now).1.links ++
                [⟨sid, (getOrCreateCategory db n now).2.1, some conf⟩] }
              sid conf now rest).1 from rfl]
        rw [hstep.2.2.1]
        exact hgan
      · rw [show (linkCategories db sid conf now (n :: rest)).1 =
            (linkCategories { (getOrCreateCategory db n now).1 with
              links := (getOrCreateCategory db n now).1.links ++
                [⟨sid, (getOrCreateCategory db n now).2.1, some conf⟩] }
              sid conf now rest).1 from rfl]
        rw [hstep.2.2.2.1]
        exact hgnext
      · rw [show (linkCategories db sid conf now (n :: rest)).1 =
            (linkCategories { (getOrCreateCategory db n now).1 with
              links := (getOrCreateCategory db n now).1.links ++
                [⟨sid, (getOrCreateCategory db n now).2.1, some conf⟩] }
              sid conf now rest).1 from rfl]
        rw [hstep.2.2.2.2, hnames1, List.append_assoc, List.singleton_append]

/-- Updating rows in place by id commutes with lookup by that id. -/
theorem find?_map_update (l : List Screenshot) (sid : String)
    (upd : Screenshot → Screenshot) (hid : ∀ s, (upd s).id = s.id) :
    (l.map (fun s => if s.id == sid then upd s else s)).find?
        (fun s => s.id == sid) =
      (l.find? (fun s => s.id == sid)).map upd := by
  induction l with
  | nil => rfl
  | cons a l ih =>
      cases ha : (a.id == sid) with
      | true =>
          have ha2 : a.id = sid := by simpa using ha
          simp [List.find?_cons, hid, ha2]
      | false =>
          have ha2 : ¬ a.id = sid := by simpa using ha
          simpa [List.find?_cons, hid, ha2] using ih

/-- The pre-loop reanalysis store keeps the schema invariants. -/
theorem reanalyzePrep_inv (db : DB) (sid : String) (j : Judgement) (now : Int)
    (hinv : DBInv db) : DBInv (reanalyzePrep db sid j now) := by
  obtain ⟨hb, hn, hl⟩ := hinv
  refine ⟨hb, hn, ?_⟩
  intro l hl'
  exact hl l (List.mem_filter.mp hl').1

/-- After the delete step, the screenshot has no links at all. -/
theorem reanalyzePrep_linkedNames (db : DB) (sid : String) (j : Judgement)
    (now : Int) : linkedNames (reanalyzePrep db sid j now) sid = [] := by
  unfold linkedNames reanalyzePrep
  have hfil : (db.links.filter (fun l => l.screenshotId ≠ sid)).filter
      (fun l => l.screenshotId == sid) = [] := by
    rw [List.filter_eq_nil_iff]
    intro a ha
    have hne := (List.mem_filter.mp ha).2
    simp only [decide_eq_true_eq] at hne
    simp [hne]
  rw [hfil]
  rfl

/-- The pre-loop reanalysis store still holds the screenshot row, updated
in place, with its storage key unchanged. -/
theorem reanalyzePrep_find (db : DB) (sid : String) (j : Judgement) (now : Int)
    (shot : Screenshot)
    (hshot : db.screenshots.find? (fun s => s.id == sid) = some shot) :
    (reanalyzePrep db sid j now).screenshots.find? (fun s => s.id == sid) =
      some { shot with
        analyzedAt := some now
        isImportant := j.isImportant
        confidenceScore := some j.confidence } := by
  unfold reanalyzePrep
  dsimp only
  rw [find?_map_update db.screenshots sid
    (fun s =>
      { s with
          analyzedAt := some now
          isImportant := j.isImportant
          confidenceScore := some j.confidence })
    (fun s => rfl), hshot]
  rfl

/-- One reanalysis call on a present row with a present blob: the schema
invariants are preserved, exactly one analysis-result row tagged
`gemini_vision_reanalysis` is appended, the screenshot's links afterwards
are exactly the judgement's categories, the blob store does not move, the
row remains present under its key, and the response reports the
judgement. -/
theorem reanalyzeOp_spec (st : State) (sid : String) (cr : ClassifierResult)
    (now : Int) (hinv : DBInv st.db) (shot : Screenshot)
    (hshot : st.db.screenshots.find? (fun s => s.id == sid) = some shot)
    (hblob : ∃ b, r2Get st.blobs shot.r2Key = some b) :
    DBInv (reanalyzeOp st sid cr now).1.db
    ∧ (reanalyzeOp st sid cr now).1.db.analyses =
        st.db.analyses ++ [⟨st.db.nextAnalysisId, sid,
          "gemini_vision_reanalysis", analyzeScreenshot cr, now⟩]
    ∧ linkedNames (reanalyzeOp st sid cr now).1.db sid =
        (analyzeScreenshot cr).categories
    ∧ (reanalyzeOp st sid cr now).1.blobs = st.blobs
    ∧ (∃ shot2, (reanalyzeOp st sid cr now).1.db.screenshots.find?
          (fun s => s.id == sid) = some shot2 ∧ shot2.r2Key = shot.r2Key)
    ∧ (reanalyzeOp st sid cr now).2 = ReanalyzeResponse.ok
        (analyzeScreenshot cr).isImportant (analyzeScreenshot cr).confidence
        (analyzeScreenshot cr).categories := by
  obtain ⟨b, hb⟩ := hblob
  have hred : reanalyzeOp st sid cr now =
      (⟨(linkCategories (reanalyzePrep st.db sid (analyzeScreenshot cr) now) sid
          (analyzeScreenshot cr).confidence now
          (analyzeScreenshot cr).categories).1, st.blobs⟩,
        ReanalyzeResponse.ok (analyzeScreenshot cr).isImportant
          (analyzeScreenshot cr).confidence
          (analyzeScreenshot cr).categories) := by
    simp only [reanalyzeOp, hshot, hb]
    rfl
  have hprep := reanalyzePrep_inv st.db sid (analyzeScreenshot cr) now hinv
  have hspec := linkCategories_spec sid (analyzeScreenshot cr).confidence now
    (analyzeScreenshot cr).categories (reanalyzePrep st.db sid
      (analyzeScreenshot cr) now) hprep
  rw [hred]
  refine ⟨hspec.1, ?_, ?_, rfl, ?_, rfl⟩
  · rw [hspec.2.2.1]
    rfl
  · rw [hspec.2.2.2.2, reanalyzePrep_linkedNames]
    rfl
  · refine ⟨{ shot with
        analyzedAt := some now
        isImportant := (analyzeScreenshot cr).isImportant
        confidenceScore := some (analyzeScreenshot cr).confidence }, ?_, rfl⟩
    rw [hspec.2.1]
    exact reanalyzePrep_find st.db sid (analyzeScreenshot cr) now shot hshot

/-- Splitting a sequence of reanalysis calls. -/
theorem reanalyzeMany_append (sid : String) (a b : List (ClassifierResult × Int)) :
    ∀ st : State,
      reanalyzeMany st sid (a ++ b) = reanalyzeMany (reanalyzeMany st sid a) sid b := by
  induction a with
  | nil => intro st; rfl
  | cons hd tl ih =>
      intro st
      cases hd with
      | mk cr now => exact ih (reanalyzeOp st sid cr now).1

/-- Invariants carried through any sequence of reanalysis calls: schema
invariants, presence of the row and its blob, and exactly one appended
analysis row per call. -/
theorem reanalyzeMany_inv (sid : String) :
    ∀ (js : List (ClassifierResult × Int)) (st : State), DBInv st.db →
      (∃ shot, st.db.screenshots.find? (fun s => s.id == sid) = some shot ∧
        ∃ b, r2Get st.blobs shot.r2Key = some b) →
      DBInv (reanalyzeMany st sid js).db
      ∧ (∃ shot, (reanalyzeMany st sid js).db.screenshots.find?
            (fun s => s.id == sid) = some shot ∧
          ∃ b, r2Get (reanalyzeMany st sid js).blobs shot.r2Key = some b)
      ∧ (∃ rest, (reanalyzeMany st sid js).db.analyses = st.db.analyses ++ rest ∧
          rest.length = js.length) := by
  intro js
  induction js with
  | nil =>
      intro st hinv hpres
      exact ⟨hinv, hpres, [], by simp [reanalyzeMany], rfl⟩
  | cons hd tl ih =>
      intro st hinv hpres
      obtain ⟨shot, hshot, hblob⟩ := hpres
      cases hd with
      | mk cr tnow =>
          have hspec := reanalyzeOp_spec st sid cr tnow hinv shot hshot hblob
          obtain ⟨shot2, hshot2, hkey2⟩ := hspec.2.2.2.2.1
          have hblob2 : ∃ b, r2Get (reanalyzeOp st sid cr tnow).1.blobs shot2.r2Key =
              some b := by
            rw [hspec.2.2.2.1, hkey2]
            exact hblob
          have hih := ih (reanalyzeOp st sid cr tnow).1 hspec.1
            ⟨shot2, hshot2, hblob2⟩
          refine ⟨hih.1, hih.2.1, ?_⟩
          obtain ⟨rest2, hrest2, hlen2⟩ := hih.2.2
          refine ⟨⟨st.db.nextAnalysisId, sid, "gemini_vision_reanalysis",
              analyzeScreenshot cr, tnow⟩ :: rest2, ?_, by simp [hlen2]⟩
          show (reanalyzeMany (reanalyzeOp st sid cr tnow).1 sid tl).db.analyses = _
          rw [hrest2, hspec.2.1, List.append_assoc]
          rfl

/-- In the `index.ts` reanalyze handler, reanalysing an existing
screenshot `N = js.length + 1` times appends exactly `N` analysis-result
rows, leaving the pre-existing rows as an unchanged prefix (each single
call appends exactly one row tagged `gemini_vision_reanalysis` and
touches nothing earlier), and afterwards the screenshot's link rows name
exactly the categories of the last judgement: all prior links are
deleted before the new ones are written, never merged.  This is the
behaviour the claim describes; the alternate entry point diverges from
it (see the theorem on the alternate reanalyze below). -/
theorem reanalysis_history_and_links (st : State) (sid : String)
    (js : List (ClassifierResult × Int)) (cr : ClassifierResult) (now : Int)
    (hinv : DBInv st.db)
    (hpres : ∃ shot, st.db.screenshots.find? (fun s => s.id == sid) = some shot ∧
        ∃ b, r2Get st.blobs shot.r2Key = some b) :
    (∃ rest, (reanalyzeMany st sid (js ++ [(cr, now)])).db.analyses =
        st.db.analyses ++ rest ∧ rest.length = js.length + 1)
    ∧ linkedNames (reanalyzeMany st sid (js ++ [(cr, now)])).db sid =
        (analyzeScreenshot cr).categories
    ∧ (∀ shot, st.db.screenshots.find? (fun s => s.id == sid) = some shot →
        (reanalyzeOp st sid cr now).1.db.analyses =
          st.db.analyses ++ [⟨st.db.nextAnalysisId, sid,
            "gemini_vision_reanalysis", analyzeScreenshot cr, now⟩]) := by
  obtain ⟨shot, hshot, hblob⟩ := hpres
  have hfold := reanalyzeMany_inv sid js st hinv ⟨shot, hshot, hblob⟩
  obtain ⟨shotN, hshotN, hblobN⟩ := hfold.2.1
  have hlast := reanalyzeOp_spec (reanalyzeMany st sid js) sid cr now hfold.1
    shotN hshotN hblobN
  have hsplit : reanalyzeMany st sid (js ++ [(cr, now)]) =
      (reanalyzeOp (reanalyzeMany st sid js) sid cr now).1 := by
    rw [reanalyzeMany_append]
    rfl
  refine ⟨?_, ?_, ?_⟩
  · obtain ⟨rest1, hrest1, hlen1⟩ := hfold.2.2
    refine ⟨rest1 ++ [⟨(reanalyzeMany st sid js).db.nextAnalysisId, sid,
        "gemini_vision_reanalysis", analyzeScreenshot cr, now⟩], ?_, by simp [hlen1]⟩
    rw [hsplit, hlast.2.1, hrest1, List.append_assoc]
  · rw [hsplit]
    exact hlast.2.2.1
  · intro shot0 hshot0
    have heq : shot0 = shot := by
      rw [hshot0] at hshot
      exact Option.some.inj hshot
    exact (reanalyzeOp_spec st sid cr now hinv shot0 hshot0
      (by rw [heq]; exact hblob)).2.1

/-- Instantiation of the `index.ts` reanalyze result: one reanalysis of a concrete screenshot that already
has an `"Old"` category link appends one analysis row and leaves exactly
the new judgement's `["Dev"]` as its linked categories. -/
theorem reanalysis_history_and_links_witness :
    (∃ rest, (reanalyzeMany
        ⟨⟨[⟨"id1", "a.png", "k1", 5, "image/png", 0, none, false, none⟩],
          [⟨0, "Old", none, 0⟩], [⟨"id1", 0, none⟩], [], 1, 0⟩,
          [⟨"k1", "image/png"⟩]⟩ "id1"
        ([] ++ [(Except.ok ⟨true, mkRat 9 10, ["Dev"], "d", "t", "dev", "Dev",
            "keep", "high"⟩, 2)])).db.analyses = [] ++ rest ∧
        rest.length = 0 + 1)
    ∧ linkedNames (reanalyzeMany
        ⟨⟨[⟨"id1", "a.png", "k1", 5, "image/png", 0, none, false, none⟩],
          [⟨0, "Old", none, 0⟩], [⟨"id1", 0, none⟩], [], 1, 0⟩,
          [⟨"k1", "image/png"⟩]⟩ "id1"
        ([] ++ [(Except.ok ⟨true, mkRat 9 10, ["Dev"], "d", "t", "dev", "Dev",
            "keep", "high"⟩, 2)])).db "id1" =
      (analyzeScreenshot (Except.ok ⟨true, mkRat 9 10, ["Dev"], "d", "t", "dev",
        "Dev", "keep", "high"⟩)).categories := by
  have h := reanalysis_history_and_links
    ⟨⟨[⟨"id1", "a.png", "k1", 5, "image/png", 0, none, false, none⟩],
      [⟨0, "Old", none, 0⟩], [⟨"id1", 0, none⟩], [], 1, 0⟩,
      [⟨"k1", "image/png"⟩]⟩ "id1" []
    (Except.ok ⟨true, mkRat 9 10, ["Dev"], "d", "t", "dev", "Dev", "keep", "high"⟩)
    2
    (by unfold DBInv; exact ⟨by decide, by decide, by decide⟩)
    ⟨⟨"id1", "a.png", "k1", 5, "image/png", 0, none, false, none⟩, rfl,
      ⟨⟨"k1", "image/png"⟩, rfl⟩⟩
  exact ⟨h.1, h.2.1⟩

/-- C3: the claim also covers the alternate reanalyze handler
(`part_000` lines 340-411), and there the code is a slip: the loop
iterates `analysis.categories`, a field the variant's own single-label
judgement schema does not define, so it throws right after the link
delete.  At a concrete screenshot with an existing category link and a
successful judgement whose folder category is `"Dev"`, one reanalysis
still appends its analysis-result row, but answers 500 and leaves the
screenshot with no link rows at all instead of the judgement's
category — where the `index.ts` handler, which implements the claimed
behaviour, would leave exactly `["Dev"]`. -/
theorem part000_reanalyze_drops_links :
    (Alt.reanalyzeOp
        ⟨⟨[⟨"id1", "a.png", "k1", 5, "image/png", 0, none, false, none⟩],
          [⟨0, "Dev", none, 0⟩], [⟨"id1", 0, some (mkRat 1 2)⟩], [], 1, 0⟩,
          [⟨"k1", "image/png"⟩]⟩ "id1"
        (Except.ok ⟨false, mkRat 9 10, "Dev", "d", "t", "dev", "Dev", "keep",
          "high"⟩) 2).2 = Alt.ReanalyzeResponse.serverError "Reanalysis failed"
    ∧ ((Alt.reanalyzeOp
        ⟨⟨[⟨"id1", "a.png", "k1", 5, "image/png", 0, none, false, none⟩],
          [⟨0, "Dev", none, 0⟩], [⟨"id1", 0, some (mkRat 1 2)⟩], [], 1, 0⟩,
          [⟨"k1", "image/png"⟩]⟩ "id1"
        (Except.ok ⟨false, mkRat 9 10, "Dev", "d", "t", "dev", "Dev", "keep",
          "high"⟩) 2).1.db.links.filter (fun l => l.screenshotId == "id1")) = []
    ∧ ((Alt.reanalyzeOp
        ⟨⟨[⟨"id1", "a.png", "k1", 5, "image/png", 0, none, false, none⟩],
          [⟨0, "Dev", none, 0⟩], [⟨"id1", 0, some (mkRat 1 2)⟩], [], 1, 0⟩,
          [⟨"k1", "image/png"⟩]⟩ "id1"
        (Except.ok ⟨false, mkRat 9 10, "Dev", "d", "t", "dev", "Dev", "keep",
          "high"⟩) 2).1.db.analyses).length = 1
    ∧ (Alt.analyzeScreenshot (Except.ok ⟨false, mkRat 9 10, "Dev", "d", "t",
        "dev", "Dev", "keep", "high"⟩)).folderCategory = "Dev" := by
  refine ⟨by decide, by decide, by decide, rfl⟩

end ScreenSift
